/-
Verification of the python_magnetunits Field/FieldType/Registry/FormatDefinition
subsystem. The Python sources are shallowly embedded: pure functions become Lean
functions, the stateful registry becomes explicit state passing, numeric values
are modelled by rationals, and fallible code returns Except/Option.
-/
import Mathlib

namespace MagnetUnits

/-! ## Model of the external unit system (pint)

The repository configures a single pint UnitRegistry in
python_magnetunits/field.py (get_global_ureg): SI units plus the custom
definitions percent, ppm, var and Gauss.  We model a unit as an SI dimension
vector together with a rational scale factor to coherent SI base units and a
rational additive offset (for degC).  Conversion of a quantity succeeds exactly
when the dimension vectors agree, mirroring pint's dimensionality check. -/

/-- SI dimension exponents: length, mass, time, current, temperature. -/
structure Dim where
  length : Int
  mass : Int
  time : Int
  current : Int
  temperature : Int
  deriving DecidableEq, Repr

/-- A resolved unit: dimension, scale to SI base units, additive offset. -/
structure Unit where
  dim : Dim
  scale : Rat
  offset : Rat
  deriving DecidableEq, Repr

/-- Errors raised by the modelled pint library and by Field construction.
In pint, DimensionalityError is a subclass of TypeError (of ValueError in
older releases) and UndefinedUnitError is a subclass of AttributeError. -/
inductive PintErr where
  | typeError
  | valueError
  | dimensionalityError
  | undefinedUnitError
  deriving DecidableEq, Repr

/-- Which exceptions the clause `except (TypeError, ValueError)` of
Field.validate_value catches: dimensionality errors are subclasses of
TypeError (pint >= 0.20) or ValueError (earlier), so they are caught either
way; undefined-unit errors subclass AttributeError and are not caught. -/
def PintErr.isTypeOrValueError : PintErr → Bool
  | .typeError => true
  | .valueError => true
  | .dimensionalityError => true
  | .undefinedUnitError => false

/-- Convert a magnitude between two resolved units (pint Quantity.to):
succeeds iff the dimensions agree, applying scales and offsets. -/
def convertQ (value : Rat) (fromU toU : Unit) : Except PintErr Rat :=
  if fromU.dim = toU.dim then
    .ok ((value * fromU.scale + fromU.offset - toU.offset) / toU.scale)
  else
    .error .dimensionalityError

namespace ureg

def dimNone : Dim := ⟨0, 0, 0, 0, 0⟩

def dimensionless : Unit := ⟨dimNone, 1, 0⟩
def percent : Unit := ⟨dimNone, 1/100, 0⟩
def ppm : Unit := ⟨dimNone, 1/1000000, 0⟩

def meter : Unit := ⟨⟨1, 0, 0, 0, 0⟩, 1, 0⟩
def centimeter : Unit := ⟨⟨1, 0, 0, 0, 0⟩, 1/100, 0⟩
def meter2 : Unit := ⟨⟨2, 0, 0, 0, 0⟩, 1, 0⟩
def meter3 : Unit := ⟨⟨3, 0, 0, 0, 0⟩, 1, 0⟩

def second : Unit := ⟨⟨0, 0, 1, 0, 0⟩, 1, 0⟩
def kilogram : Unit := ⟨⟨0, 1, 0, 0, 0⟩, 1, 0⟩

def kelvin : Unit := ⟨⟨0, 0, 0, 0, 1⟩, 1, 0⟩
/-- degC: same dimension as kelvin, offset 273.15 = 5463/20. -/
def degC : Unit := ⟨⟨0, 0, 0, 0, 1⟩, 1, 5463/20⟩
/-- degF: offset unit, scale 5/9, offset 45967/180 (i.e. 273.15 - 32*5/9). -/
def degF : Unit := ⟨⟨0, 0, 0, 0, 1⟩, 5/9, 45967/180⟩

def ampere : Unit := ⟨⟨0, 0, 0, 1, 0⟩, 1, 0⟩
def tesla : Unit := ⟨⟨0, 1, -2, -1, 0⟩, 1, 0⟩
/-- gauss: pint defines gauss = 1e-4 * tesla = G, dimensionally a tesla. -/
def gauss : Unit := ⟨⟨0, 1, -2, -1, 0⟩, 1/10000, 0⟩
/-- Gauss: custom SI-compatible definition from get_global_ureg,
"Gauss = 1e-4 tesla = G". -/
def GaussSI : Unit := ⟨⟨0, 1, -2, -1, 0⟩, 1/10000, 0⟩
def millitesla : Unit := ⟨⟨0, 1, -2, -1, 0⟩, 1/1000, 0⟩

def volt : Unit := ⟨⟨2, 1, -3, -1, 0⟩, 1, 0⟩
def volt_per_meter : Unit := ⟨⟨1, 1, -3, -1, 0⟩, 1, 0⟩
def ampere_per_meter2 : Unit := ⟨⟨-2, 0, 0, 1, 0⟩, 1, 0⟩
def ohm : Unit := ⟨⟨2, 1, -3, -2, 0⟩, 1, 0⟩
def henry : Unit := ⟨⟨2, 1, -2, -2, 0⟩, 1, 0⟩
def ohm_meter : Unit := ⟨⟨3, 1, -3, -2, 0⟩, 1, 0⟩
def siemens_per_meter : Unit := ⟨⟨-3, -1, 3, 2, 0⟩, 1, 0⟩

def watt : Unit := ⟨⟨2, 1, -3, 0, 0⟩, 1, 0⟩
def megawatt : Unit := ⟨⟨2, 1, -3, 0, 0⟩, 1000000, 0⟩
/-- var = volt * ampere, custom definition from get_global_ureg. -/
def var : Unit := ⟨⟨2, 1, -3, 0, 0⟩, 1, 0⟩
def megavar : Unit := ⟨⟨2, 1, -3, 0, 0⟩, 1000000, 0⟩

def watt_per_meter2 : Unit := ⟨⟨0, 1, -3, 0, 0⟩, 1, 0⟩
def watt_per_meter_kelvin : Unit := ⟨⟨1, 1, -3, 0, -1⟩, 1, 0⟩
def watt_per_meter2_kelvin : Unit := ⟨⟨0, 1, -3, 0, -1⟩, 1, 0⟩
def joule_per_kilogram_kelvin : Unit := ⟨⟨2, 0, -2, 0, -1⟩, 1, 0⟩
def per_kelvin : Unit := ⟨⟨0, 0, 0, 0, -1⟩, 1, 0⟩
def meter2_per_second : Unit := ⟨⟨2, 0, -1, 0, 0⟩, 1, 0⟩

def pascal : Unit := ⟨⟨-1, 1, -2, 0, 0⟩, 1, 0⟩
def megapascal : Unit := ⟨⟨-1, 1, -2, 0, 0⟩, 1000000, 0⟩
def bar : Unit := ⟨⟨-1, 1, -2, 0, 0⟩, 100000, 0⟩
def psi : Unit := ⟨⟨-1, 1, -2, 0, 0⟩, 689476/100, 0⟩
def meter3_per_second : Unit := ⟨⟨3, 0, -1, 0, 0⟩, 1, 0⟩
def meter3_per_hour : Unit := ⟨⟨3, 0, -1, 0, 0⟩, 1/3600, 0⟩
def liter_per_minute : Unit := ⟨⟨3, 0, -1, 0, 0⟩, 1/60000, 0⟩
def meter_per_second : Unit := ⟨⟨1, 0, -1, 0, 0⟩, 1, 0⟩
def pascal_second : Unit := ⟨⟨-1, 1, -1, 0, 0⟩, 1, 0⟩

def newton : Unit := ⟨⟨1, 1, -2, 0, 0⟩, 1, 0⟩
def kilogram_per_meter3 : Unit := ⟨⟨-3, 1, 0, 0, 0⟩, 1, 0⟩
/-- radian/second: radian is dimensionless in pint. -/
def radian_per_second : Unit := ⟨⟨0, 0, -1, 0, 0⟩, 1, 0⟩
/-- revolution/minute: one revolution is 2*pi radian; pint tracks the factor
symbolically, and no claim converts rotation speeds numerically, so the model
keeps a nominal rational scale distinguishing it from radian/second. -/
def revolution_per_minute : Unit := ⟨⟨0, 0, -1, 0, 0⟩, 2/19, 0⟩

end ureg

/-- Parser of unit strings, a partial model of pint's registry restricted to
the unit names this development needs (the names appearing in the repository's
code, tests and the UNIT_ALIASES table).  Unknown names yield none, modelling
pint's UndefinedUnitError. -/
def parseUnit (s : String) : Option Unit :=
  if s = "dimensionless" then some ureg.dimensionless
  else if s = "percent" then some ureg.percent
  else if s = "ppm" then some ureg.ppm
  else if s = "meter" then some ureg.meter
  else if s = "centimeter" then some ureg.centimeter
  else if s = "second" then some ureg.second
  else if s = "kelvin" then some ureg.kelvin
  else if s = "degC" then some ureg.degC
  else if s = "degF" then some ureg.degF
  else if s = "ampere" then some ureg.ampere
  else if s = "tesla" then some ureg.tesla
  else if s = "gauss" then some ureg.gauss
  else if s = "Gauss" then some ureg.GaussSI
  else if s = "millitesla" then some ureg.millitesla
  else if s = "volt" then some ureg.volt
  else if s = "volt/meter" then some ureg.volt_per_meter
  else if s = "ampere/meter**2" then some ureg.ampere_per_meter2
  else if s = "watt" then some ureg.watt
  else if s = "megawatt" then some ureg.megawatt
  else if s = "var" then some ureg.var
  else if s = "megavar" then some ureg.megavar
  else if s = "pascal" then some ureg.pascal
  else if s = "megapascal" then some ureg.megapascal
  else if s = "bar" then some ureg.bar
  else if s = "psi" then some ureg.psi
  else if s = "liter/minute" then some ureg.liter_per_minute
  else if s = "meter**3/hour" then some ureg.meter3_per_hour
  else if s = "meter**3/second" then some ureg.meter3_per_second
  else if s = "meter/second" then some ureg.meter_per_second
  else if s = "newton" then some ureg.newton
  else if s = "revolution/minute" then some ureg.revolution_per_minute
  else none

/-- A unit argument as the Python code receives it: either a unit string or an
already-resolved pint Unit. -/
inductive UnitArg where
  | str (s : String)
  | unit (u : Unit)
  deriving DecidableEq, Repr

/-- Resolve a UnitArg as pint parsing does (ureg(...) / ureg.Unit(...)). -/
def resolveUnit : UnitArg → Option Unit
  | .str s => parseUnit s
  | .unit u => some u

/-! ## FieldType taxonomy (python_magnetunits/field_types.py)

A closed enumeration of canonical physical-quantity kinds.  Each variant
carries a canonical string value (the Python enum value), an enum member name
(the Python `.name`), a default unit, a default symbol and a LaTeX symbol,
embedded from the _FIELD_TYPE_UNITS / _FIELD_TYPE_SYMBOLS / _FIELD_TYPE_LATEX
tables. -/

inductive FieldType where
  | TIME
  | MAGNETIC_FIELD
  | ELECTRIC_FIELD
  | CURRENT
  | CURRENT_DENSITY
  | VOLTAGE
  | RESISTANCE
  | INDUCTANCE
  | ELECTRICAL_RESISTIVITY
  | ELECTRICAL_CONDUCTIVITY
  | RELATIVE_PERMITTIVITY
  | RELATIVE_PERMEABILITY
  | MAGNETIC_SUSCEPTIBILITY
  | POWER
  | REACTIVE_POWER
  | TEMPERATURE
  | HEAT_FLUX
  | THERMAL_CONDUCTIVITY
  | HEAT_TRANSFER_COEFFICIENT
  | SPECIFIC_HEAT
  | THERMAL_EXPANSION
  | THERMAL_DIFFUSIVITY
  | PRESSURE
  | FLOW_RATE
  | VELOCITY
  | DYNAMIC_VISCOSITY
  | KINEMATIC_VISCOSITY
  | FORCE
  | STRESS
  | STRAIN
  | DENSITY
  | YOUNG_MODULUS
  | POISSON_RATIO
  | ROTATION_SPEED
  | PERCENTAGE
  | COORDINATE
  | LENGTH
  | AREA
  | VOLUME
  | INDEX
  deriving DecidableEq, Repr

namespace FieldType

/-- Every taxonomy member, in declaration order. -/
def all : List FieldType :=
  [TIME, MAGNETIC_FIELD, ELECTRIC_FIELD, CURRENT, CURRENT_DENSITY, VOLTAGE,
   RESISTANCE, INDUCTANCE, ELECTRICAL_RESISTIVITY, ELECTRICAL_CONDUCTIVITY,
   RELATIVE_PERMITTIVITY, RELATIVE_PERMEABILITY, MAGNETIC_SUSCEPTIBILITY,
   POWER, REACTIVE_POWER, TEMPERATURE, HEAT_FLUX, THERMAL_CONDUCTIVITY,
   HEAT_TRANSFER_COEFFICIENT, SPECIFIC_HEAT, THERMAL_EXPANSION,
   THERMAL_DIFFUSIVITY, PRESSURE, FLOW_RATE, VELOCITY, DYNAMIC_VISCOSITY,
   KINEMATIC_VISCOSITY, FORCE, STRESS, STRAIN, DENSITY, YOUNG_MODULUS,
   POISSON_RATIO, ROTATION_SPEED, PERCENTAGE, COORDINATE, LENGTH, AREA,
   VOLUME, INDEX]

/-- The Python enum value string (e.g. FieldType.MAGNETIC_FIELD.value). -/
def value : FieldType → String
  | TIME => "time"
  | MAGNETIC_FIELD => "magnetic_field"
  | ELECTRIC_FIELD => "electric_field"
  | CURRENT => "current"
  | CURRENT_DENSITY => "current_density"
  | VOLTAGE => "voltage"
  | RESISTANCE => "resistance"
  | INDUCTANCE => "inductance"
  | ELECTRICAL_RESISTIVITY => "electrical_resistivity"
  | ELECTRICAL_CONDUCTIVITY => "electrical_conductivity"
  | RELATIVE_PERMITTIVITY => "relative_permittivity"
  | RELATIVE_PERMEABILITY => "relative_permeability"
  | MAGNETIC_SUSCEPTIBILITY => "magnetic_susceptibility"
  | POWER => "power"
  | REACTIVE_POWER => "reactive_power"
  | TEMPERATURE => "temperature"
  | HEAT_FLUX => "heat_flux"
  | THERMAL_CONDUCTIVITY => "thermal_conductivity"
  | HEAT_TRANSFER_COEFFICIENT => "heat_transfer_coefficient"
  | SPECIFIC_HEAT => "specific_heat"
  | THERMAL_EXPANSION => "thermal_expansion"
  | THERMAL_DIFFUSIVITY => "thermal_diffusivity"
  | PRESSURE => "pressure"
  | FLOW_RATE => "flow_rate"
  | VELOCITY => "velocity"
  | DYNAMIC_VISCOSITY => "dynamic_viscosity"
  | KINEMATIC_VISCOSITY => "kinematic_viscosity"
  | FORCE => "force"
  | STRESS => "stress"
  | STRAIN => "strain"
  | DENSITY => "density"
  | YOUNG_MODULUS => "young_modulus"
  | POISSON_RATIO => "poisson_ratio"
  | ROTATION_SPEED => "rotation_speed"
  | PERCENTAGE => "percentage"
  | COORDINATE => "coordinate"
  | LENGTH => "length"
  | AREA => "area"
  | VOLUME => "volume"
  | INDEX => "index"

/-- The Python enum member name (e.g. FieldType.MAGNETIC_FIELD.name),
which Field.from_field_type uses as the default field name. -/
def enumName : FieldType → String
  | TIME => "TIME"
  | MAGNETIC_FIELD => "MAGNETIC_FIELD"
  | ELECTRIC_FIELD => "ELECTRIC_FIELD"
  | CURRENT => "CURRENT"
  | CURRENT_DENSITY => "CURRENT_DENSITY"
  | VOLTAGE => "VOLTAGE"
  | RESISTANCE => "RESISTANCE"
  | INDUCTANCE => "INDUCTANCE"
  | ELECTRICAL_RESISTIVITY => "ELECTRICAL_RESISTIVITY"
  | ELECTRICAL_CONDUCTIVITY => "ELECTRICAL_CONDUCTIVITY"
  | RELATIVE_PERMITTIVITY => "RELATIVE_PERMITTIVITY"
  | RELATIVE_PERMEABILITY => "RELATIVE_PERMEABILITY"
  | MAGNETIC_SUSCEPTIBILITY => "MAGNETIC_SUSCEPTIBILITY"
  | POWER => "POWER"
  | REACTIVE_POWER => "REACTIVE_POWER"
  | TEMPERATURE => "TEMPERATURE"
  | HEAT_FLUX => "HEAT_FLUX"
  | THERMAL_CONDUCTIVITY => "THERMAL_CONDUCTIVITY"
  | HEAT_TRANSFER_COEFFICIENT => "HEAT_TRANSFER_COEFFICIENT"
  | SPECIFIC_HEAT => "SPECIFIC_HEAT"
  | THERMAL_EXPANSION => "THERMAL_EXPANSION"
  | THERMAL_DIFFUSIVITY => "THERMAL_DIFFUSIVITY"
  | PRESSURE => "PRESSURE"
  | FLOW_RATE => "FLOW_RATE"
  | VELOCITY => "VELOCITY"
  | DYNAMIC_VISCOSITY => "DYNAMIC_VISCOSITY"
  | KINEMATIC_VISCOSITY => "KINEMATIC_VISCOSITY"
  | FORCE => "FORCE"
  | STRESS => "STRESS"
  | STRAIN => "STRAIN"
  | DENSITY => "DENSITY"
  | YOUNG_MODULUS => "YOUNG_MODULUS"
  | POISSON_RATIO => "POISSON_RATIO"
  | ROTATION_SPEED => "ROTATION_SPEED"
  | PERCENTAGE => "PERCENTAGE"
  | COORDINATE => "COORDINATE"
  | LENGTH => "LENGTH"
  | AREA => "AREA"
  | VOLUME => "VOLUME"
  | INDEX => "INDEX"

/-- Default SI unit table (_FIELD_TYPE_UNITS). -/
def default_unit : FieldType → Unit
  | TIME => ureg.second
  | MAGNETIC_FIELD => ureg.tesla
  | ELECTRIC_FIELD => ureg.volt_per_meter
  | CURRENT => ureg.ampere
  | CURRENT_DENSITY => ureg.ampere_per_meter2
  | VOLTAGE => ureg.volt
  | RESISTANCE => ureg.ohm
  | INDUCTANCE => ureg.henry
  | ELECTRICAL_RESISTIVITY => ureg.ohm_meter
  | ELECTRICAL_CONDUCTIVITY => ureg.siemens_per_meter
  | RELATIVE_PERMITTIVITY => ureg.dimensionless
  | RELATIVE_PERMEABILITY => ureg.dimensionless
  | MAGNETIC_SUSCEPTIBILITY => ureg.dimensionless
  | POWER => ureg.watt
  | REACTIVE_POWER => ureg.var
  | TEMPERATURE => ureg.kelvin
  | HEAT_FLUX => ureg.watt_per_meter2
  | THERMAL_CONDUCTIVITY => ureg.watt_per_meter_kelvin
  | HEAT_TRANSFER_COEFFICIENT => ureg.watt_per_meter2_kelvin
  | SPECIFIC_HEAT => ureg.joule_per_kilogram_kelvin
  | THERMAL_EXPANSION => ureg.per_kelvin
  | THERMAL_DIFFUSIVITY => ureg.meter2_per_second
  | PRESSURE => ureg.pascal
  | FLOW_RATE => ureg.meter3_per_second
  | VELOCITY => ureg.meter_per_second
  | DYNAMIC_VISCOSITY => ureg.pascal_second
  | KINEMATIC_VISCOSITY => ureg.meter2_per_second
  | FORCE => ureg.newton
  | STRESS => ureg.pascal
  | STRAIN => ureg.dimensionless
  | DENSITY => ureg.kilogram_per_meter3
  | YOUNG_MODULUS => ureg.pascal
  | POISSON_RATIO => ureg.dimensionless
  | ROTATION_SPEED => ureg.radian_per_second
  | PERCENTAGE => ureg.percent
  | COORDINATE => ureg.meter
  | LENGTH => ureg.meter
  | AREA => ureg.meter2
  | VOLUME => ureg.meter3
  | INDEX => ureg.dimensionless

/-- Default symbol table (_FIELD_TYPE_SYMBOLS). -/
def default_symbol : FieldType → String
  | TIME => "t"
  | MAGNETIC_FIELD => "B"
  | ELECTRIC_FIELD => "E"
  | CURRENT => "I"
  | CURRENT_DENSITY => "J"
  | VOLTAGE => "U"
  | RESISTANCE => "R"
  | INDUCTANCE => "L"
  | ELECTRICAL_RESISTIVITY => "ρ_e"
  | ELECTRICAL_CONDUCTIVITY => "σ"
  | RELATIVE_PERMITTIVITY => "ε_r"
  | RELATIVE_PERMEABILITY => "μ_r"
  | MAGNETIC_SUSCEPTIBILITY => "χ"
  | POWER => "P"
  | REACTIVE_POWER => "Q"
  | TEMPERATURE => "T"
  | HEAT_FLUX => "q"
  | THERMAL_CONDUCTIVITY => "k"
  | HEAT_TRANSFER_COEFFICIENT => "h"
  | SPECIFIC_HEAT => "c_p"
  | THERMAL_EXPANSION => "α"
  | THERMAL_DIFFUSIVITY => "α_th"
  | PRESSURE => "P"
  | FLOW_RATE => "Q"
  | VELOCITY => "v"
  | DYNAMIC_VISCOSITY => "μ"
  | KINEMATIC_VISCOSITY => "ν"
  | FORCE => "F"
  | STRESS => "σ"
  | STRAIN => "ε"
  | DENSITY => "ρ"
  | YOUNG_MODULUS => "E"
  | POISSON_RATIO => "ν"
  | ROTATION_SPEED => "ω"
  | PERCENTAGE => "%"
  | COORDINATE => "x"
  | LENGTH => "L"
  | AREA => "A"
  | VOLUME => "V"
  | INDEX => "i"

/-- Default LaTeX symbol table (_FIELD_TYPE_LATEX). -/
def latex_symbol : FieldType → String
  | TIME => "$t$"
  | MAGNETIC_FIELD => "$B$"
  | ELECTRIC_FIELD => "$E$"
  | CURRENT => "$I$"
  | CURRENT_DENSITY => "$J$"
  | VOLTAGE => "$U$"
  | RESISTANCE => "$R$"
  | INDUCTANCE => "$L$"
  | ELECTRICAL_RESISTIVITY => "$\\rho_e$"
  | ELECTRICAL_CONDUCTIVITY => "$\\sigma$"
  | RELATIVE_PERMITTIVITY => "$\\varepsilon_r$"
  | RELATIVE_PERMEABILITY => "$\\mu_r$"
  | MAGNETIC_SUSCEPTIBILITY => "$\\chi$"
  | POWER => "$P$"
  | REACTIVE_POWER => "$Q$"
  | TEMPERATURE => "$T$"
  | HEAT_FLUX => "$q$"
  | THERMAL_CONDUCTIVITY => "$k$"
  | HEAT_TRANSFER_COEFFICIENT => "$h$"
  | SPECIFIC_HEAT => "$c_p$"
  | THERMAL_EXPANSION => "$\\alpha$"
  | THERMAL_DIFFUSIVITY => "$\\alpha_\x7bth\x7d$"
  | PRESSURE => "$P$"
  | FLOW_RATE => "$Q$"
  | VELOCITY => "$v$"
  | DYNAMIC_VISCOSITY => "$\\mu$"
  | KINEMATIC_VISCOSITY => "$\\nu$"
  | FORCE => "$F$"
  | STRESS => "$\\sigma$"
  | STRAIN => "$\\varepsilon$"
  | DENSITY => "$\\rho$"
  | YOUNG_MODULUS => "$E$"
  | POISSON_RATIO => "$\\nu$"
  | ROTATION_SPEED => "$\\omega$"
  | PERCENTAGE => "$\\%$"
  | COORDINATE => "$x$"
  | LENGTH => "$L$"
  | AREA => "$A$"
  | VOLUME => "$V$"
  | INDEX => "$i$"

/-- Dimensional compatibility check (FieldType.is_compatible): resolve the
unit (parsing a string), then attempt a trial conversion of a unit quantity
into the default unit; any failure, including an unparseable string, yields
false. -/
def is_compatible (ft : FieldType) (u : UnitArg) : Bool :=
  match resolveUnit u with
  | some x => decide (x.dim = (default_unit ft).dim)
  | none => false

end FieldType

/-! ## Field (python_magnetunits/field.py) -/

/-- Python values that may be passed to Field.validate_value / pint Quantity.
The dict constructor stands for any mapping; quantity stands for a pint
Quantity of a magnitude and unit. -/
inductive PyValue where
  | num (q : Rat)
  | pynone
  | str (s : String)
  | dict
  | pybool (b : Bool)
  | quantity (q : Rat) (u : Unit)
  deriving DecidableEq, Repr

/-- Construction of a pint Quantity from a value and an explicit (already
resolved) unit, embedding pint's Quantity.__new__ with a units argument:
None, mappings and bools are rejected with TypeError, the empty string with
ValueError, any other string is kept as a magnitude, numbers are kept, and a
Quantity value is converted into the target unit (DimensionalityError when
the dimensions disagree). -/
def mkQuantity (v : PyValue) (u : Unit) : Except PintErr PyValue :=
  match v with
  | .pynone => .error .typeError
  | .dict => .error .typeError
  | .pybool _ => .error .typeError
  | .str s => if s = "" then .error .valueError else .ok (.str s)
  | .num q => .ok (.num q)
  | .quantity q u0 =>
    match convertQ q u0 u with
    | .ok m => .ok (.num m)
    | .error e => .error e

/-- The Field record after construction: the unit is resolved, latex_symbol
has been defaulted.  Metadata values are modelled as strings (only the
"category" key is ever consulted). -/
structure Field where
  name : String
  symbol : String
  unit : Unit
  field_type : Option FieldType
  description : Option String
  latex_symbol : String
  aliases : List String
  exclude_regions : List String
  default_value : Option Rat
  metadata : List (String × String)
  deriving DecidableEq, Repr

/-- Field construction (dataclass init plus __post_init__): resolve a string
unit (UndefinedUnitError when unparseable), default latex_symbol to symbol,
and when a field_type is present require dimensional compatibility of the
resolved unit, raising a ValueError otherwise. -/
def mkField (name symbol : String) (unit : UnitArg) (field_type : Option FieldType)
    (description : Option String) (latex_symbol : Option String)
    (aliases exclude_regions : List String) (default_value : Option Rat)
    (metadata : List (String × String)) : Except PintErr Field :=
  match resolveUnit unit with
  | none => .error .undefinedUnitError
  | some u =>
    let ls := latex_symbol.getD symbol
    match field_type with
    | none =>
      .ok ⟨name, symbol, u, none, description, ls, aliases, exclude_regions,
           default_value, metadata⟩
    | some ft =>
      if ft.is_compatible (.unit u) then
        .ok ⟨name, symbol, u, some ft, description, ls, aliases, exclude_regions,
             default_value, metadata⟩
      else
        .error .valueError

/-- Python truthiness-based defaulting `x or d` for an optional string
argument: None and the empty string are falsy. -/
def pyOrStr (x : Option String) (d : String) : String :=
  match x with
  | some s => if s = "" then d else s
  | none => d

/-- Python truthiness-based defaulting `x or d` for an optional unit
argument: None and the empty unit string are falsy; a resolved pint Unit
object is always truthy. -/
def pyOrUnit (x : Option UnitArg) (d : UnitArg) : UnitArg :=
  match x with
  | some (.str s) => if s = "" then d else .str s
  | some (.unit u) => .unit u
  | none => d

/-- Field.from_field_type: fill name, symbol, unit and latex_symbol from the
taxonomy entry when the override is falsy, then delegate to the constructor
(extra keyword arguments are not needed by any claim and are fixed to their
dataclass defaults). -/
def Field.from_field_type (ft : FieldType) (name symbol : Option String)
    (unit : Option UnitArg) (latex_symbol : Option String) : Except PintErr Field :=
  mkField (pyOrStr name ft.enumName) (pyOrStr symbol ft.default_symbol)
    (pyOrUnit unit (.unit ft.default_unit)) (some ft) none
    (some (pyOrStr latex_symbol ft.latex_symbol)) [] [] none []

/-- Field.convert: build a quantity of the value in the field's unit and
convert it to the target unit, which is parsed when given as a string
(UndefinedUnitError when unparseable, DimensionalityError when
incompatible). -/
def Field.convert (f : Field) (value : Rat) (to_unit : UnitArg) : Except PintErr Rat :=
  match resolveUnit to_unit with
  | none => .error .undefinedUnitError
  | some tu => convertQ value f.unit tu

/-- Field.validate_value: attempt Quantity construction, catching TypeError
and ValueError (which in pint covers dimensionality errors too); any other
exception kind would propagate. -/
def Field.validate_value (f : Field) (value : PyValue) : Except PintErr Bool :=
  match mkQuantity value f.unit with
  | .ok _ => .ok true
  | .error e => if e.isTypeOrValueError then .ok false else .error e

/-- Field.applies_to_region: region not in exclude_regions. -/
def Field.applies_to_region (f : Field) (region : String) : Bool :=
  decide (region ∉ f.exclude_regions)

/-! ## FieldRegistry (python_magnetunits/registry.py)

The registry keeps a primary dict from name to Field and two derived indices:
symbol to Field, and alias to list of Fields.  Python dicts are modelled as
functions into Option; key deletion stores none.  (Dict iteration order is
not needed by any claim about this class.) -/

/-- Pointwise update of a string-keyed map, modelling dict assignment and
deletion. -/
def mapSet (m : String → Option α) (k : String) (v : Option α) : String → Option α :=
  fun k' => if k' = k then v else m k'

/-- The three indices of FieldRegistry.__init__: _fields, _by_symbol,
_by_alias. -/
structure FieldRegistry where
  fields : String → Option Field
  by_symbol : String → Option Field
  by_alias : String → Option (List Field)

/-- FieldRegistry(): all three indices empty. -/
def FieldRegistry.empty : FieldRegistry :=
  ⟨fun _ => none, fun _ => none, fun _ => none⟩

/-- One iteration of the alias loop of register: create the bucket if absent
and append the field. -/
def appendStep (field : Field) (m : String → Option (List Field)) (al : String) :
    String → Option (List Field) :=
  mapSet m al (some ((m al).getD [] ++ [field]))

/-- The alias loop of register, over all aliases of the field. -/
def appendAliases (m : String → Option (List Field)) (aliases : List String)
    (field : Field) : String → Option (List Field) :=
  aliases.foldl (appendStep field) m

/-- FieldRegistry.register: overwrite the primary entry by name, overwrite
the symbol index entry, and append the field to the bucket of every alias. -/
def FieldRegistry.register (r : FieldRegistry) (field : Field) : FieldRegistry :=
  ⟨mapSet r.fields field.name (some field),
   mapSet r.by_symbol field.symbol (some field),
   appendAliases r.by_alias field.aliases field⟩

/-- FieldRegistry.get: name match first, then symbol match, then alias match
returning the field only when the bucket holds exactly one entry. -/
def FieldRegistry.get (r : FieldRegistry) (identifier : String) : Option Field :=
  match r.fields identifier with
  | some f => some f
  | none =>
    match r.by_symbol identifier with
    | some f => some f
    | none =>
      match r.by_alias identifier with
      | some ms => if ms.length = 1 then ms.head? else none
      | none => none

/-- FieldRegistry.has_field. -/
def FieldRegistry.has_field (r : FieldRegistry) (identifier : String) : Bool :=
  (r.get identifier).isSome

/-- One iteration of the alias-cleanup loop of remove: in the bucket of one
alias, drop every entry whose name is the removed name, deleting the bucket
when it becomes empty (the bucket is only touched when the alias is a key). -/
def purgeStep (field_name : String) (m : String → Option (List Field))
    (al : String) : String → Option (List Field) :=
  match m al with
  | some l =>
    if (l.filter (fun f => f.name ≠ field_name)).isEmpty then mapSet m al none
    else mapSet m al (some (l.filter (fun f => f.name ≠ field_name)))
  | none => m

/-- The alias-cleanup loop of remove, over all aliases of the removed
field. -/
def purgeAliases (m : String → Option (List Field)) (aliases : List String)
    (field_name : String) : String → Option (List Field) :=
  aliases.foldl (purgeStep field_name) m

/-- FieldRegistry.remove: false and no change when the name is absent;
otherwise delete the primary entry, delete the symbol entry whenever the
symbol is a key of the symbol index, clean the alias buckets of the removed
field, and return true. -/
def FieldRegistry.remove (r : FieldRegistry) (field_name : String) :
    Bool × FieldRegistry :=
  match r.fields field_name with
  | none => (false, r)
  | some field =>
    let fields' := mapSet r.fields field_name none
    let by_symbol' :=
      match r.by_symbol field.symbol with
      | some _ => mapSet r.by_symbol field.symbol none
      | none => r.by_symbol
    let by_alias' := purgeAliases r.by_alias field.aliases field_name
    (true, ⟨fields', by_symbol', by_alias'⟩)

/-- The defs of class FieldRegistry in registry.py, in source order. -/
def registryMethodNames : List String :=
  ["__init__", "register", "get", "list_fields", "bulk_register", "has_field",
   "remove", "__len__", "__contains__", "__repr__"]

/-- The index attributes initialized by FieldRegistry.__init__. -/
def registryIndexNames : List String :=
  ["_fields", "_by_symbol", "_by_alias"]

/-! ### Registration histories -/

/-- A mutating registry operation. -/
inductive Op where
  | register (f : Field)
  | remove (n : String)
  deriving DecidableEq

/-- Apply one operation to a registry state. -/
def stepOp (r : FieldRegistry) : Op → FieldRegistry
  | .register f => r.register f
  | .remove n => (r.remove n).2

/-- Run a history of operations from the empty registry. -/
def runOps (ops : List Op) : FieldRegistry :=
  ops.foldl stepOp FieldRegistry.empty

/-- The fields of the register operations of a history, in order. -/
def registeredFields (ops : List Op) : List Field :=
  ops.filterMap (fun op => match op with | .register g => some g | .remove _ => none)

/-- Number of times a field value was registered since the last remove of its
name: registers of the value increment, removes of its name reset. -/
def cntStep (cnt : Field → Nat) : Op → (Field → Nat)
  | .register g => fun f => if g = f then cnt f + 1 else cnt f
  | .remove m => fun f => if m = f.name then 0 else cnt f

/-- Fold of cntStep over a history, starting from zero. -/
def regCount (ops : List Op) (f : Field) : Nat :=
  (ops.foldl cntStep (fun _ => 0)) f

/-- Multiplicity of a field value in an alias bucket. -/
def bucketCount (r : FieldRegistry) (a : String) (f : Field) : Nat :=
  ((r.by_alias a).getD []).count f

/-! ## Example registry variant (prompts/example_registry_implementation.py)

This alternate FieldRegistry maintains a fourth, category index and is the
only registry in the repository with a clear() method.  Only the state shape
and clear are needed here. -/

/-- The four indices of the example FieldRegistry: _fields, _by_symbol,
_by_alias, _by_category. -/
structure ExampleFieldRegistry where
  fields : String → Option Field
  by_symbol : String → Option Field
  by_alias : String → Option (List Field)
  by_category : String → Option (List Field)

/-- The clear method of the example registry: clears all four dicts. -/
def ExampleFieldRegistry.clear (_ : ExampleFieldRegistry) : ExampleFieldRegistry :=
  ⟨fun _ => none, fun _ => none, fun _ => none, fun _ => none⟩

/-! ## Format loader (python_magnetunits/formats/format_definition.py) -/

/-- The UNIT_ALIASES table mapping common unit names to pint-compatible
strings. -/
def UNIT_ALIASES : List (String × String) :=
  [("celsius", "degC"), ("fahrenheit", "degF"), ("kelvin", "kelvin"),
   ("bar", "bar"), ("pascal", "pascal"), ("Pa", "pascal"),
   ("MPa", "megapascal"), ("psi", "psi"),
   ("liter/minute", "liter/minute"), ("l/min", "liter/minute"),
   ("m3/h", "meter**3/hour"), ("meter**3/hour", "meter**3/hour"),
   ("megawatt", "megawatt"), ("MW", "megawatt"), ("watt", "watt"),
   ("W", "watt"), ("megavar", "megavar"), ("Mvar", "megavar"),
   ("ampere", "ampere"), ("A", "ampere"), ("volt", "volt"), ("V", "volt"),
   ("tesla", "tesla"), ("T", "tesla"), ("rpm", "revolution/minute"),
   ("dimensionless", "dimensionless"), ("percent", "percent"),
   ("%", "percent")]

/-- normalize_unit: UNIT_ALIASES.get(unit_str, unit_str). -/
def normalize_unit (unit_str : String) : String :=
  match UNIT_ALIASES.lookup unit_str with
  | some s => s
  | none => unit_str

/-- get_field_type: FieldType(field_type_str), or None when the string is not
a taxonomy value. -/
def get_field_type (field_type_str : String) : Option FieldType :=
  FieldType.all.find? (fun ft => ft.value = field_type_str)

/-- FieldDefinition: the intermediate loader record deserialized from one
format-description entry. -/
structure FieldDefinition where
  name : String
  field_type : Option String
  unit : String
  symbol : Option String
  description : Option String
  latex_symbol : Option String
  aliases : List String
  exclude_regions : List String
  deriving DecidableEq, Repr

/-- Warning text emitted by to_field in the incompatible case. -/
def incompatWarning (d : FieldDefinition) : String :=
  "Field " ++ d.name ++ ": unit incompatible with field_type, creating without type validation"

/-- FieldDefinition.to_field: resolve the field_type string (a falsy string
yields None), normalize the unit string, default the symbol to the column
name, and construct the Field; when the declared type is incompatible with
the normalized unit, emit one warning and construct without the type (so the
Field constructor's compatibility check cannot fail).  The first component
collects the warnings emitted. -/
def FieldDefinition.to_field (d : FieldDefinition) :
    List String × Except PintErr Field :=
  match (match d.field_type with
         | some s => if s = "" then none else get_field_type s
         | none => none) with
  | some ft =>
    if ft.is_compatible (.str (normalize_unit d.unit)) then
      ([], mkField d.name (pyOrStr d.symbol d.name) (.str (normalize_unit d.unit))
            (some ft) d.description d.latex_symbol d.aliases d.exclude_regions none [])
    else
      ([incompatWarning d],
       mkField d.name (pyOrStr d.symbol d.name) (.str (normalize_unit d.unit))
         none d.description d.latex_symbol d.aliases d.exclude_regions none [])
  | none =>
    ([], mkField d.name (pyOrStr d.symbol d.name) (.str (normalize_unit d.unit))
          none d.description d.latex_symbol d.aliases d.exclude_regions none [])

/-- The built state of a FormatDefinition: the column-name dict (an ordered
assoc list mirroring the Python dict), the internal registry, and the
warnings emitted while building. -/
structure FormatDefinition where
  format_name : String
  fields : List (String × Field)
  registry : FieldRegistry
  warnings : List String

/-- Ordered-dict insertion: replace in place when the key exists, append
otherwise. -/
def dictInsert (l : List (String × Field)) (k : String) (v : Field) :
    List (String × Field) :=
  match l with
  | [] => [(k, v)]
  | (k', v') :: rest =>
    if k' = k then (k, v) :: rest else (k', v') :: dictInsert rest k v

/-- One iteration of FormatDefinition._build_fields: convert the definition,
store a success in the column dict and the registry, and warn (skipping the
entry) on any conversion failure. -/
def buildStep (acc : List (String × Field) × FieldRegistry × List String)
    (defn : FieldDefinition) : List (String × Field) × FieldRegistry × List String :=
  match defn.to_field with
  | (w, .ok field) => (dictInsert acc.1 defn.name field, acc.2.1.register field, acc.2.2 ++ w)
  | (w, .error _) => (acc.1, acc.2.1, acc.2.2 ++ w ++ ["Could not create field " ++ defn.name])

/-- FormatDefinition._build_fields over all field definitions. -/
def buildFields (defs : List FieldDefinition) :
    List (String × Field) × FieldRegistry × List String :=
  defs.foldl buildStep ([], FieldRegistry.empty, [])

/-- FormatDefinition.__init__ for a name and field definitions. -/
def mkFormatDefinition (format_name : String) (defs : List FieldDefinition) :
    FormatDefinition :=
  ⟨format_name, (buildFields defs).1, (buildFields defs).2.1, (buildFields defs).2.2⟩

/-- FormatDefinition.__len__: number of entries of the column dict. -/
def FormatDefinition.len (fmt : FormatDefinition) : Nat :=
  fmt.fields.length

/-- FormatDefinition.get_field: column-name lookup. -/
def FormatDefinition.get_field (fmt : FormatDefinition) (column_name : String) :
    Option Field :=
  (fmt.fields.lookup column_name)

/-- FormatDefinition.list_fields_by_type: filter the built fields by exact
field_type equality. -/
def FormatDefinition.list_fields_by_type (fmt : FormatDefinition)
    (field_type : FieldType) : List Field :=
  (fmt.fields.map Prod.snd).filter (fun f => f.field_type = some field_type)

/-! ## Registry lemmas: pointwise characterizations of register and remove -/

theorem mapSet_apply (m : String → Option α) (k : String) (v : Option α)
    (k' : String) : mapSet m k v k' = if k' = k then v else m k' := rfl

theorem count_replicate_field (f g : Field) (n : Nat) :
    (List.replicate n g).count f = if f = g then n else 0 := by
  by_cases h : f = g
  · subst h; simp [List.count_replicate]
  · simp [List.count_replicate, h]
    intro h'
    exact absurd h'.symm h

theorem count_cons_str (a b : String) (l : List String) :
    (b :: l).count a = l.count a + if a = b then 1 else 0 := by
  by_cases h : a = b
  · subst h; simp [List.count_cons]
  · simp [List.count_cons, h]

theorem appendStep_apply (field : Field) (m : String → Option (List Field))
    (al a : String) :
    appendStep field m al a =
      if a = al then some ((m al).getD [] ++ [field]) else m a := rfl

/-- Value of the register alias loop at one key: untouched when the key is
not an alias, otherwise the old bucket (empty when absent) extended by one
copy of the field per occurrence of the key among the aliases. -/
theorem appendAliases_apply (aliases : List String) :
    ∀ (m : String → Option (List Field)) (field : Field) (a : String),
      appendAliases m aliases field a =
        if aliases.count a = 0 then m a
        else some ((m a).getD [] ++ List.replicate (aliases.count a) field) := by
  induction aliases with
  | nil =>
    intro m field a
    simp [appendAliases]
  | cons al rest ih =>
    intro m field a
    have hstep : appendAliases m (al :: rest) field =
        appendAliases (appendStep field m al) rest field := rfl
    rw [hstep, ih, count_cons_str]
    by_cases hal : a = al
    · subst hal
      have h1 : (if a = a then 1 else 0) = 1 := if_pos rfl
      rw [h1]
      have h2 : rest.count a + 1 ≠ 0 := Nat.succ_ne_zero _
      rw [if_neg h2]
      have h3 : appendStep field m a a = some ((m a).getD [] ++ [field]) := by
        rw [appendStep_apply]
        exact if_pos rfl
      rw [h3]
      by_cases h0 : rest.count a = 0
      · rw [if_pos h0, h0]
        rfl
      · rw [if_neg h0, Option.getD_some, List.append_assoc,
           List.replicate_succ, List.singleton_append]
    · have h1 : (if a = al then 1 else 0) = 0 := if_neg hal
      rw [h1, Nat.add_zero]
      have h3 : appendStep field m al a = m a := by
        rw [appendStep_apply]
        exact if_neg hal
      rw [h3]

/-- Cleaning one bucket during remove: drop the entries carrying the removed
name, deleting the bucket when it becomes empty. -/
def purgeOne (o : Option (List Field)) (field_name : String) : Option (List Field) :=
  match o with
  | some l =>
    if (l.filter (fun f => f.name ≠ field_name)).isEmpty then none
    else some (l.filter (fun f => f.name ≠ field_name))
  | none => none

theorem purgeOne_some (l : List Field) (n : String) :
    purgeOne (some l) n =
      if (l.filter (fun f => f.name ≠ n)).isEmpty then none
      else some (l.filter (fun f => f.name ≠ n)) := rfl

theorem purgeStep_apply (n : String) (m : String → Option (List Field))
    (al a : String) :
    purgeStep n m al a = if a = al then purgeOne (m al) n else m a := by
  have hunf : purgeStep n m al a =
      (match m al with
       | some l =>
         if (l.filter (fun f : Field => f.name ≠ n)).isEmpty then mapSet m al none
         else mapSet m al (some (l.filter (fun f : Field => f.name ≠ n)))
       | none => m) a := rfl
  rw [hunf]
  cases hma : m al with
  | none =>
    show m a = if a = al then purgeOne none n else m a
    by_cases h : a = al
    · subst h
      rw [if_pos rfl]
      exact hma
    · rw [if_neg h]
  | some l =>
    show (if (l.filter (fun f => f.name ≠ n)).isEmpty then mapSet m al none
          else mapSet m al (some (l.filter (fun f => f.name ≠ n)))) a =
        if a = al then
          (if (l.filter (fun f => f.name ≠ n)).isEmpty then none
           else some (l.filter (fun f => f.name ≠ n)))
        else m a
    by_cases hemp : (l.filter (fun f => f.name ≠ n)).isEmpty
    · rw [if_pos hemp, if_pos hemp, mapSet_apply]
    · rw [if_neg hemp, if_neg hemp, mapSet_apply]

theorem purgeOne_idem (o : Option (List Field)) (n : String) :
    purgeOne (purgeOne o n) n = purgeOne o n := by
  match o with
  | none => rfl
  | some l =>
    by_cases hemp : (l.filter (fun f => f.name ≠ n)).isEmpty
    · have h1 : purgeOne (some l) n = none := by
        show (if (l.filter (fun f => f.name ≠ n)).isEmpty then none
              else some (l.filter (fun f => f.name ≠ n))) = none
        rw [if_pos hemp]
      rw [h1]
      rfl
    · have h1 : purgeOne (some l) n = some (l.filter (fun f => f.name ≠ n)) := by
        show (if (l.filter (fun f => f.name ≠ n)).isEmpty then none
              else some (l.filter (fun f => f.name ≠ n))) = _
        rw [if_neg hemp]
      rw [h1]
      have hff : (l.filter (fun f => f.name ≠ n)).filter (fun f => f.name ≠ n) =
          l.filter (fun f => f.name ≠ n) := by
        rw [List.filter_filter]
        congr 1
        funext f
        cases hd : decide (f.name ≠ n) <;> simp [hd]
      show (if ((l.filter (fun f => f.name ≠ n)).filter (fun f => f.name ≠ n)).isEmpty
            then none
            else some ((l.filter (fun f => f.name ≠ n)).filter (fun f => f.name ≠ n))) =
          some (l.filter (fun f => f.name ≠ n))
      rw [hff, if_neg hemp]

/-- Value of the remove alias loop at one key. -/
theorem purgeAliases_apply (aliases : List String) :
    ∀ (m : String → Option (List Field)) (n : String) (a : String),
      purgeAliases m aliases n a =
        if a ∈ aliases then purgeOne (m a) n else m a := by
  induction aliases with
  | nil =>
    intro m n a
    simp [purgeAliases]
  | cons al rest ih =>
    intro m n a
    have hstep : purgeAliases m (al :: rest) n =
        purgeAliases (purgeStep n m al) rest n := rfl
    rw [hstep, ih]
    by_cases hal : a = al
    · subst hal
      have h3 : purgeStep n m a a = purgeOne (m a) n := by
        rw [purgeStep_apply]
        exact if_pos rfl
      have hmem' : a ∈ a :: rest := List.mem_cons_self a rest
      rw [if_pos hmem']
      by_cases hmem : a ∈ rest
      · rw [if_pos hmem, h3, purgeOne_idem]
      · rw [if_neg hmem, h3]
    · have h3 : purgeStep n m al a = m a := by
        rw [purgeStep_apply]
        exact if_neg hal
      by_cases hmem : a ∈ rest
      · have hmem2 : a ∈ al :: rest := List.mem_cons_of_mem al hmem
        rw [if_pos hmem, if_pos hmem2, h3]
      · have hnot : a ∉ al :: rest := by
          intro hc
          rcases List.mem_cons.mp hc with hc1 | hc2
          · exact hal hc1
          · exact hmem hc2
        rw [if_neg hmem, if_neg hnot, h3]

/-- Pointwise effect of register on the three indices. -/
theorem register_char (r : FieldRegistry) (g : Field) :
    (∀ k, (r.register g).fields k = if k = g.name then some g else r.fields k) ∧
    (∀ s, (r.register g).by_symbol s = if s = g.symbol then some g else r.by_symbol s) ∧
    (∀ a, (r.register g).by_alias a =
      if g.aliases.count a = 0 then r.by_alias a
      else some (((r.by_alias a).getD []) ++ List.replicate (g.aliases.count a) g)) := by
  refine ⟨fun k => rfl, fun s => rfl, fun a => ?_⟩
  exact appendAliases_apply g.aliases r.by_alias g a

/-- Remove of an absent name returns false and the unchanged state. -/
theorem remove_none (r : FieldRegistry) (m : String) (hm : r.fields m = none) :
    r.remove m = (false, r) := by
  unfold FieldRegistry.remove
  rw [hm]

/-- Pointwise effect of remove of a present name on the three indices: the
primary entry is deleted, the symbol entry of the removed field is deleted
whenever the symbol is a key (whichever field it maps to), and the buckets of
the removed field's aliases are cleaned. -/
theorem remove_some_char (r : FieldRegistry) (m : String) (h : Field)
    (hm : r.fields m = some h) :
    (r.remove m).1 = true ∧
    (∀ k, ((r.remove m).2).fields k = if k = m then none else r.fields k) ∧
    (∀ s, ((r.remove m).2).by_symbol s = if s = h.symbol then none else r.by_symbol s) ∧
    (∀ a, ((r.remove m).2).by_alias a =
      if a ∈ h.aliases then purgeOne (r.by_alias a) m else r.by_alias a) := by
  have hrm : r.remove m =
      (true,
       ⟨mapSet r.fields m none,
        match r.by_symbol h.symbol with
        | some _ => mapSet r.by_symbol h.symbol none
        | none => r.by_symbol,
        purgeAliases r.by_alias h.aliases m⟩) := by
    unfold FieldRegistry.remove
    rw [hm]
  refine ⟨by rw [hrm], fun k => by rw [hrm]; rfl, fun s => ?_, fun a => ?_⟩
  · rw [hrm]
    show (match r.by_symbol h.symbol with
          | some _ => mapSet r.by_symbol h.symbol none
          | none => r.by_symbol) s = _
    match hsy : r.by_symbol h.symbol with
    | some f0 => exact mapSet_apply r.by_symbol h.symbol none s
    | none =>
      by_cases hs : s = h.symbol
      · subst hs
        rw [if_pos rfl]
        exact hsy
      · rw [if_neg hs]
  · rw [hrm]
    exact purgeAliases_apply h.aliases r.by_alias m a

/-! ## Invariants of registration histories -/

theorem bucketCount_register (r : FieldRegistry) (g f : Field) (a : String) :
    bucketCount (r.register g) a f =
      bucketCount r a f + (if f = g then g.aliases.count a else 0) := by
  have h := (register_char r g).2.2 a
  unfold bucketCount
  rw [h]
  by_cases h0 : g.aliases.count a = 0
  · rw [if_pos h0]
    by_cases hfg : f = g
    · rw [if_pos hfg, h0]
      rfl
    · rw [if_neg hfg]
      rfl
  · rw [if_neg h0, Option.getD_some, List.count_append, count_replicate_field]

theorem count_purgeOne_ne (o : Option (List Field)) (m : String) (f : Field)
    (hf : f.name ≠ m) : ((purgeOne o m).getD []).count f = (o.getD []).count f := by
  cases o with
  | none => rfl
  | some l =>
    show ((if (l.filter (fun x => x.name ≠ m)).isEmpty then none
           else some (l.filter (fun x => x.name ≠ m))).getD []).count f = l.count f
    have hcf : (l.filter (fun x => x.name ≠ m)).count f = l.count f :=
      List.count_filter (by simpa using hf)
    by_cases hemp : (l.filter (fun x => x.name ≠ m)).isEmpty
    · rw [if_pos hemp]
      have hnil : l.filter (fun x => x.name ≠ m) = [] := List.isEmpty_iff.mp hemp
      rw [hnil] at hcf
      simpa using hcf
    · rw [if_neg hemp, Option.getD_some, hcf]

theorem count_purgeOne_eq (o : Option (List Field)) (m : String) (f : Field)
    (hf : f.name = m) : ((purgeOne o m).getD []).count f = 0 := by
  cases o with
  | none => rfl
  | some l =>
    show ((if (l.filter (fun x => x.name ≠ m)).isEmpty then none
           else some (l.filter (fun x => x.name ≠ m))).getD []).count f = 0
    by_cases hemp : (l.filter (fun x => x.name ≠ m)).isEmpty
    · rw [if_pos hemp]
      rfl
    · rw [if_neg hemp, Option.getD_some, List.count_eq_zero]
      intro hmem
      rw [List.mem_filter] at hmem
      simp [hf] at hmem

/-- Pairwise coherence of the registered field values: equal names or equal
symbols only between equal field values. -/
def Hcompat (fs : List Field) : Prop :=
  ∀ g, g ∈ fs → ∀ g', g' ∈ fs →
    (g.name = g'.name → g = g') ∧ (g.symbol = g'.symbol → g = g')

/-- Invariant tying a registry state to the fields registered so far and the
per-field registration counters: entries of the primary and symbol maps are
registered fields stored under their own key, primary entries are indexed by
their symbol, bucket multiplicities follow the counters, and a positive
counter keeps the field in the primary map. -/
def GInv (R : List Field) (r : FieldRegistry) (cnt : Field → Nat) : Prop :=
  (∀ k f, r.fields k = some f → f ∈ R ∧ k = f.name) ∧
  (∀ s f, r.by_symbol s = some f → f ∈ R ∧ s = f.symbol) ∧
  (∀ f, r.fields f.name = some f → r.by_symbol f.symbol = some f) ∧
  (∀ f a, bucketCount r a f = f.aliases.count a * cnt f) ∧
  (∀ f, 1 ≤ cnt f → r.fields f.name = some f)

/-- The fields registered by one operation. -/
def opRegs : Op → List Field
  | .register g => [g]
  | .remove _ => []

theorem registeredFields_cons (op : Op) (ops : List Op) :
    registeredFields (op :: ops) = opRegs op ++ registeredFields ops := by
  cases op <;> simp [registeredFields, opRegs]

theorem ginv_empty : GInv [] FieldRegistry.empty (fun _ => 0) := by
  refine ⟨?_, ?_, ?_, ?_, ?_⟩
  · intro k f hkf
    exact absurd hkf (by simp [FieldRegistry.empty])
  · intro s f hsf
    exact absurd hsf (by simp [FieldRegistry.empty])
  · intro f hf
    exact absurd hf (by simp [FieldRegistry.empty])
  · intro f a
    simp [bucketCount, FieldRegistry.empty]
  · intro f hf
    simp at hf

theorem cntStep_register (cnt : Field → Nat) (g f : Field) :
    cntStep cnt (Op.register g) f = if g = f then cnt f + 1 else cnt f := rfl

theorem cntStep_remove (cnt : Field → Nat) (m : String) (f : Field) :
    cntStep cnt (Op.remove m) f = if m = f.name then 0 else cnt f := rfl

theorem ginv_step (R : List Field) (r : FieldRegistry) (cnt : Field → Nat)
    (op : Op) (hH : Hcompat (R ++ opRegs op)) (hI : GInv R r cnt) :
    GInv (R ++ opRegs op) (stepOp r op) (cntStep cnt op) := by
  obtain ⟨hA, hB, hD, hE, hF⟩ := hI
  cases op with
  | register g =>
    obtain ⟨hfk, hsy, _⟩ := register_char r g
    have hgmem : g ∈ R ++ opRegs (Op.register g) := by
      simp [opRegs]
    refine ⟨?_, ?_, ?_, ?_, ?_⟩
    · intro k f hkf
      rw [show stepOp r (Op.register g) = r.register g from rfl, hfk] at hkf
      by_cases hk : k = g.name
      · rw [if_pos hk] at hkf
        obtain rfl : g = f := Option.some.inj hkf
        exact ⟨hgmem, hk⟩
      · rw [if_neg hk] at hkf
        obtain ⟨hmem, hkey⟩ := hA k f hkf
        exact ⟨List.mem_append_left _ hmem, hkey⟩
    · intro s f hsf
      rw [show stepOp r (Op.register g) = r.register g from rfl, hsy] at hsf
      by_cases hs : s = g.symbol
      · rw [if_pos hs] at hsf
        obtain rfl : g = f := Option.some.inj hsf
        exact ⟨hgmem, hs⟩
      · rw [if_neg hs] at hsf
        obtain ⟨hmem, hkey⟩ := hB s f hsf
        exact ⟨List.mem_append_left _ hmem, hkey⟩
    · intro f hf
      rw [show stepOp r (Op.register g) = r.register g from rfl, hfk] at hf
      rw [show stepOp r (Op.register g) = r.register g from rfl, hsy]
      by_cases hn : f.name = g.name
      · rw [if_pos hn] at hf
        obtain rfl : g = f := Option.some.inj hf
        rw [if_pos rfl]
      · rw [if_neg hn] at hf
        have hfR : f ∈ R := (hA _ f hf).1
        by_cases hs : f.symbol = g.symbol
        · exfalso
          have := (hH f (List.mem_append_left _ hfR) g hgmem).2 hs
          exact hn (by rw [this])
        · rw [if_neg hs]
          exact hD f hf
    · intro f a
      rw [show stepOp r (Op.register g) = r.register g from rfl,
          bucketCount_register, hE, cntStep_register]
      by_cases hfg : f = g
      · rw [if_pos hfg, if_pos (by rw [hfg])]
        subst hfg
        rw [Nat.mul_succ]
      · rw [if_neg hfg, if_neg (fun hc => hfg (by rw [hc])), Nat.add_zero]
    · intro f h1
      rw [show stepOp r (Op.register g) = r.register g from rfl, hfk]
      rw [cntStep_register] at h1
      by_cases hgf : g = f
      · rw [if_pos (by rw [hgf]), hgf]
      · rw [if_neg hgf] at h1
        have hfields := hF f h1
        have hfR : f ∈ R := (hA _ f hfields).1
        by_cases hn : f.name = g.name
        · exfalso
          have := (hH f (List.mem_append_left _ hfR) g hgmem).1 hn
          exact hgf this.symm
        · rw [if_neg hn]
          exact hfields
  | remove m =>
    have happ : R ++ opRegs (Op.remove m) = R := by simp [opRegs]
    rw [happ]
    have hcnt : ∀ f, cntStep cnt (Op.remove m) f = if m = f.name then 0 else cnt f :=
      fun f => rfl
    cases hm : r.fields m with
    | none =>
      have hstate : stepOp r (Op.remove m) = r := by
        show (r.remove m).2 = r
        rw [remove_none r m hm]
      rw [hstate]
      refine ⟨hA, hB, hD, ?_, ?_⟩
      · intro f a
        rw [hE, hcnt]
        by_cases hmf : m = f.name
        · rw [if_pos hmf]
          have hc0 : cnt f = 0 := by
            by_contra hc
            have := hF f (by omega)
            rw [← hmf, hm] at this
            exact Option.noConfusion this
          rw [hc0]
        · rw [if_neg hmf]
      · intro f h1
        rw [hcnt] at h1
        by_cases hmf : m = f.name
        · rw [if_pos hmf] at h1
          exact absurd h1 (by omega)
        · rw [if_neg hmf] at h1
          exact hF f h1
    | some hfld =>
      obtain ⟨_, hfk, hsy, hal⟩ := remove_some_char r m hfld hm
      obtain ⟨hhR, hhname⟩ := hA m hfld hm
      refine ⟨?_, ?_, ?_, ?_, ?_⟩
      · intro k f hkf
        rw [show stepOp r (Op.remove m) = (r.remove m).2 from rfl, hfk] at hkf
        by_cases hk : k = m
        · rw [if_pos hk] at hkf
          exact Option.noConfusion hkf
        · rw [if_neg hk] at hkf
          exact hA k f hkf
      · intro s f hsf
        rw [show stepOp r (Op.remove m) = (r.remove m).2 from rfl, hsy] at hsf
        by_cases hs : s = hfld.symbol
        · rw [if_pos hs] at hsf
          exact Option.noConfusion hsf
        · rw [if_neg hs] at hsf
          exact hB s f hsf
      · intro f hf
        rw [show stepOp r (Op.remove m) = (r.remove m).2 from rfl, hfk] at hf
        rw [show stepOp r (Op.remove m) = (r.remove m).2 from rfl, hsy]
        by_cases hk : f.name = m
        · rw [if_pos hk] at hf
          exact Option.noConfusion hf
        · rw [if_neg hk] at hf
          have hfR : f ∈ R := (hA _ f hf).1
          by_cases hs : f.symbol = hfld.symbol
          · exfalso
            have := (hH f (List.mem_append_left _ hfR) hfld
              (List.mem_append_left _ hhR)).2 hs
            rw [this] at hk
            exact hk hhname.symm
          · rw [if_neg hs]
            exact hD f hf
      · intro f a
        rw [show stepOp r (Op.remove m) = (r.remove m).2 from rfl]
        unfold bucketCount
        rw [hal, hcnt]
        by_cases hmf : m = f.name
        · rw [if_pos hmf, Nat.mul_zero]
          by_cases ha : a ∈ hfld.aliases
          · rw [if_pos ha]
            exact count_purgeOne_eq _ m f hmf.symm
          · rw [if_neg ha]
            by_cases hc : 1 ≤ cnt f
            · have hfields := hF f hc
              rw [← hmf, hm] at hfields
              obtain rfl : hfld = f := Option.some.inj hfields
              have hcz : List.count a hfld.aliases = 0 := by
                rw [List.count_eq_zero]
                exact ha
              have hbc := hE hfld a
              unfold bucketCount at hbc
              rw [hbc, hcz, Nat.zero_mul]
            · have hcz : cnt f = 0 := by omega
              have := hE f a
              unfold bucketCount at this
              rw [this, hcz, Nat.mul_zero]
        · rw [if_neg hmf]
          by_cases ha : a ∈ hfld.aliases
          · rw [if_pos ha, count_purgeOne_ne _ m f (fun hc => hmf hc.symm)]
            exact hE f a
          · rw [if_neg ha]
            exact hE f a
      · intro f h1
        rw [hcnt] at h1
        by_cases hmf : m = f.name
        · rw [if_pos hmf] at h1
          exact absurd h1 (by omega)
        · rw [if_neg hmf] at h1
          rw [show stepOp r (Op.remove m) = (r.remove m).2 from rfl, hfk,
              if_neg (fun hc => hmf hc.symm)]
          exact hF f h1

theorem ginv_run (ops : List Op) :
    ∀ (R : List Field) (r : FieldRegistry) (cnt : Field → Nat),
      Hcompat (R ++ registeredFields ops) → GInv R r cnt →
      GInv (R ++ registeredFields ops) (ops.foldl stepOp r) (ops.foldl cntStep cnt) := by
  induction ops with
  | nil =>
    intro R r cnt hH hI
    simpa [registeredFields] using hI
  | cons op ops ih =>
    intro R r cnt hH hI
    have hsub : ∀ x, x ∈ R ++ opRegs op → x ∈ R ++ registeredFields (op :: ops) := by
      intro x hx
      rcases List.mem_append.mp hx with hx | hx
      · exact List.mem_append_left _ hx
      · refine List.mem_append_right _ ?_
        rw [registeredFields_cons]
        exact List.mem_append_left _ hx
    have hH1 : Hcompat (R ++ opRegs op) := by
      intro g hg g' hg'
      exact hH g (hsub g hg) g' (hsub g' hg')
    have h2 := ginv_step R r cnt op hH1 hI
    have hH2 : Hcompat ((R ++ opRegs op) ++ registeredFields ops) := by
      rw [List.append_assoc, ← registeredFields_cons]
      exact hH
    have h3 := ih (R ++ opRegs op) (stepOp r op) (cntStep cnt op) hH2 h2
    rw [List.append_assoc, ← registeredFields_cons] at h3
    exact h3

/-- Evaluation of to_field when the declared taxonomy kind is resolvable but
dimensionally incompatible with the normalized unit: one warning, and the
Field is built without the type. -/
theorem to_field_incompatible (d : FieldDefinition) (s : String) (ft : FieldType)
    (u : Unit) (hd : d.field_type = some s) (hs : s ≠ "")
    (hget : get_field_type s = some ft)
    (hparse : parseUnit (normalize_unit d.unit) = some u)
    (hcmp : ft.is_compatible (.str (normalize_unit d.unit)) = false) :
    d.to_field = ([incompatWarning d],
      .ok ⟨d.name, pyOrStr d.symbol d.name, u, none, d.description,
           d.latex_symbol.getD (pyOrStr d.symbol d.name), d.aliases,
           d.exclude_regions, none, []⟩) := by
  have hmk : mkField d.name (pyOrStr d.symbol d.name) (.str (normalize_unit d.unit))
      none d.description d.latex_symbol d.aliases d.exclude_regions none [] =
      .ok ⟨d.name, pyOrStr d.symbol d.name, u, none, d.description,
           d.latex_symbol.getD (pyOrStr d.symbol d.name), d.aliases,
           d.exclude_regions, none, []⟩ := by
    unfold mkField
    rw [show resolveUnit (.str (normalize_unit d.unit)) =
          parseUnit (normalize_unit d.unit) from rfl, hparse]
  unfold FieldDefinition.to_field
  rw [hd]
  rw [show (match (some s : Option String) with
            | some s' => if s' = "" then none else get_field_type s'
            | none => none) = if s = "" then none else get_field_type s from rfl,
      if_neg hs, hget]
  show (if ft.is_compatible (.str (normalize_unit d.unit)) then
          ([], mkField d.name (pyOrStr d.symbol d.name) (.str (normalize_unit d.unit))
                (some ft) d.description d.latex_symbol d.aliases d.exclude_regions none [])
        else
          ([incompatWarning d],
           mkField d.name (pyOrStr d.symbol d.name) (.str (normalize_unit d.unit))
             none d.description d.latex_symbol d.aliases d.exclude_regions none [])) = _
  rw [hcmp]
  simp only [Bool.false_eq_true, if_false]
  rw [hmk]

/-! ## Claims -/

/-- C5: Field.validate_value is total on every modelled input value: it
always returns ok of a boolean (never propagating an exception), and the
boolean is true exactly when pint Quantity construction of the value in the
field's unit succeeds.  This holds because every failure mkQuantity can
produce is a TypeError or ValueError kind (dimensionality errors included),
all caught by the except clause. -/
theorem C5_validate_value_total_boolean (f : Field) (v : PyValue) :
    f.validate_value v = .ok (mkQuantity v f.unit).toOption.isSome := by
  unfold Field.validate_value mkQuantity
  cases v with
  | num q => rfl
  | pynone => rfl
  | str s =>
    by_cases hs : s = ""
    · simp [hs, PintErr.isTypeOrValueError, Except.toOption]
    · simp [hs, Except.toOption]
  | dict => rfl
  | pybool b => rfl
  | quantity q u0 =>
    unfold convertQ
    by_cases hd : u0.dim = f.unit.dim
    · simp [hd, Except.toOption]
    · simp [hd, PintErr.isTypeOrValueError, Except.toOption]

/-- C6: the three conversion facts: a field in tesla converts 1.0 to exactly
10000.0 gauss, a field in kelvin converts 273.15 to exactly 0.0 degC, and a
field in meter converts 1.0 to exactly 100.0 centimeter (all magnitudes
modelled as rationals; the three results are exactly representable and
exactly computed in IEEE doubles as well). -/
theorem C6_conversion_values (f : Field) :
    (f.unit = ureg.tesla → f.convert 1 (.str "gauss") = .ok 10000) ∧
    (f.unit = ureg.kelvin → f.convert 273.15 (.str "degC") = .ok 0) ∧
    (f.unit = ureg.meter → f.convert 1 (.str "centimeter") = .ok 100) := by
  refine ⟨fun h => ?_, fun h => ?_, fun h => ?_⟩
  · unfold Field.convert
    rw [h]
    show convertQ 1 ureg.tesla ureg.gauss = .ok 10000
    unfold convertQ
    rw [if_pos (show ureg.tesla.dim = ureg.gauss.dim from rfl)]
    congr 1
    show (1 * 1 + 0 - 0 : Rat) / (1 / 10000) = 10000
    norm_num
  · unfold Field.convert
    rw [h]
    show convertQ 273.15 ureg.kelvin ureg.degC = .ok 0
    unfold convertQ
    rw [if_pos (show ureg.kelvin.dim = ureg.degC.dim from rfl)]
    congr 1
    show ((273.15 : Rat) * 1 + 0 - 5463 / 20) / 1 = 0
    norm_num
  · unfold Field.convert
    rw [h]
    show convertQ 1 ureg.meter ureg.centimeter = .ok 100
    unfold convertQ
    rw [if_pos (show ureg.meter.dim = ureg.centimeter.dim from rfl)]
    congr 1
    show (1 * 1 + 0 - 0 : Rat) / (1 / 100) = 100
    norm_num

/-- C6 witness: the three conversions evaluated on concrete fields. -/
theorem C6_conversion_values_witness :
    (⟨"MagneticField", "B", ureg.tesla, none, none, "B", [], [], none, []⟩ :
      Field).convert 1 (.str "gauss") = .ok 10000 ∧
    (⟨"Temperature", "T", ureg.kelvin, none, none, "T", [], [], none, []⟩ :
      Field).convert 273.15 (.str "degC") = .ok 0 ∧
    (⟨"Length", "L", ureg.meter, none, none, "L", [], [], none, []⟩ :
      Field).convert 1 (.str "centimeter") = .ok 100 :=
  ⟨(C6_conversion_values _).1 rfl, (C6_conversion_values _).2.1 rfl,
   (C6_conversion_values _).2.2 rfl⟩

/-- C8 counterexample: the FieldRegistry class of registry.py defines no
clear method, and it maintains three indices, not four (the clear method and
the fourth, category index exist only on the example registry in
prompts/example_registry_implementation.py). -/
theorem C8_counterexample_no_clear :
    "clear" ∉ registryMethodNames ∧ registryIndexNames.length = 3 := by
  decide

/-- C8 amended: the example registry variant of
prompts/example_registry_implementation.py provides clear(), and clearing
any registry state empties all four of its indices; with the single-threaded
execution model no intermediate state is observable by a single caller. -/
theorem C8_amended_example_clear (r : ExampleFieldRegistry) :
    ∀ k, (r.clear).fields k = none ∧ (r.clear).by_symbol k = none ∧
      (r.clear).by_alias k = none ∧ (r.clear).by_category k = none :=
  fun _ => ⟨rfl, rfl, rfl, rfl⟩

/-- C10: Field.from_field_type falls back to the taxonomy defaults on any
falsy override, including explicit empty strings: for every taxonomy kind,
an empty-string name, symbol, unit or latex_symbol override is replaced by
the taxonomy default for that attribute (which is itself nonempty). -/
theorem C10_from_field_type_falsy_overrides (ft : FieldType) :
    ((Field.from_field_type ft (some "") none none none).toOption.map Field.name =
        some ft.enumName ∧ ft.enumName ≠ "") ∧
    ((Field.from_field_type ft none (some "") none none).toOption.map Field.symbol =
        some ft.default_symbol ∧ ft.default_symbol ≠ "") ∧
    ((Field.from_field_type ft none none (some (.str "")) none).toOption.map Field.unit =
        some ft.default_unit) ∧
    ((Field.from_field_type ft none none none (some "")).toOption.map Field.latex_symbol =
        some ft.latex_symbol ∧ ft.latex_symbol ≠ "") := by
  cases ft <;> exact ⟨⟨rfl, by decide⟩, ⟨rfl, by decide⟩, rfl, ⟨rfl, by decide⟩⟩

/-- C4: with a resolvable taxonomy kind whose default unit is dimensionally
incompatible with the (resolvable) unit, direct Field construction fails
with a ValueError and produces no Field, whereas FieldDefinition.to_field on
the same kind string and unit string succeeds, emitting exactly one warning
and returning a Field whose field_type is None. -/
theorem C4_strict_constructor_lenient_loader (name symbol fts us : String)
    (ft : FieldType) (u : Unit)
    (hget : get_field_type fts = some ft) (hfts : fts ≠ "")
    (hparse : parseUnit (normalize_unit us) = some u)
    (hcmp : ft.is_compatible (.unit u) = false) :
    mkField name symbol (.unit u) (some ft) none none [] [] none [] =
      .error .valueError ∧
    ((FieldDefinition.mk name (some fts) us (some symbol) none none [] []).to_field).1.length
      = 1 ∧
    ((FieldDefinition.mk name (some fts) us (some symbol) none none [] []).to_field).2.toOption.map
      Field.field_type = some none := by
  have hcmps : ft.is_compatible (.str (normalize_unit us)) = false := by
    unfold FieldType.is_compatible
    rw [show resolveUnit (.str (normalize_unit us)) =
          parseUnit (normalize_unit us) from rfl, hparse]
    exact hcmp
  have hto := to_field_incompatible
    (FieldDefinition.mk name (some fts) us (some symbol) none none [] [])
    fts ft u rfl hfts hget hparse hcmps
  refine ⟨?_, ?_, ?_⟩
  · have hdirect : mkField name symbol (.unit u) (some ft) none none [] [] none [] =
        (if ft.is_compatible (.unit u) then
          Except.ok ⟨name, symbol, u, some ft, none, (none : Option String).getD symbol,
                     [], [], none, []⟩
         else Except.error PintErr.valueError) := rfl
    rw [hdirect, hcmp]
    simp only [Bool.false_eq_true, if_false]
  · rw [hto]
    rfl
  · rw [hto]
    rfl

/-- C4 witness: the magnetic_field kind with unit meter. -/
theorem C4_strict_constructor_lenient_loader_witness :
    mkField "Field" "B" (.unit ureg.meter) (some .MAGNETIC_FIELD) none none [] [] none [] =
      .error .valueError ∧
    ((FieldDefinition.mk "Field" (some "magnetic_field") "meter" (some "B")
        none none [] []).to_field).1.length = 1 ∧
    ((FieldDefinition.mk "Field" (some "magnetic_field") "meter" (some "B")
        none none [] []).to_field).2.toOption.map Field.field_type = some none :=
  C4_strict_constructor_lenient_loader "Field" "B" "magnetic_field" "meter"
    .MAGNETIC_FIELD ureg.meter rfl (by decide) rfl (by decide)

/-- C3 counterexample: remove deletes the removed field's symbol from the
symbol index even when the index maps that symbol to a different field.
Registering amp (name "amp", symbol "I") then voltf (name "voltf", symbol
"I") leaves the symbol index mapping "I" to voltf, a field different from
amp; removing "amp" nevertheless deletes the "I" entry, whereas the claim
requires it to be kept. -/
theorem C3_counterexample_symbol_deleted :
    ((FieldRegistry.empty.register
        ⟨"amp", "I", ureg.ampere, none, none, "I", [], [], none, []⟩).register
        ⟨"voltf", "I", ureg.volt, none, none, "I", [], [], none, []⟩).by_symbol "I" =
      some ⟨"voltf", "I", ureg.volt, none, none, "I", [], [], none, []⟩ ∧
    (⟨"voltf", "I", ureg.volt, none, none, "I", [], [], none, []⟩ : Field) ≠
      ⟨"amp", "I", ureg.ampere, none, none, "I", [], [], none, []⟩ ∧
    (((FieldRegistry.empty.register
        ⟨"amp", "I", ureg.ampere, none, none, "I", [], [], none, []⟩).register
        ⟨"voltf", "I", ureg.volt, none, none, "I", [], [], none, []⟩).remove
        "amp").2.by_symbol "I" = none := by
  refine ⟨rfl, by decide, ?_⟩
  have h := remove_some_char
    ((FieldRegistry.empty.register
        ⟨"amp", "I", ureg.ampere, none, none, "I", [], [], none, []⟩).register
        ⟨"voltf", "I", ureg.volt, none, none, "I", [], [], none, []⟩)
    "amp" ⟨"amp", "I", ureg.ampere, none, none, "I", [], [], none, []⟩ rfl
  rw [h.2.2.1 "I"]
  rfl

/-- C3 amended: remove(name) on an absent name returns false with the state
unchanged; on a present name it returns true, deletes the primary entry,
deletes the removed field's symbol from the symbol index whenever that
symbol is a key (even when it maps to a different field), and cleans the
buckets of the removed field's aliases of all entries carrying the removed
name, deleting buckets that become empty. -/
theorem C3_remove_characterization (r : FieldRegistry) (n : String) :
    (r.fields n = none → r.remove n = (false, r)) ∧
    (∀ g, r.fields n = some g →
      (r.remove n).1 = true ∧
      (∀ k, ((r.remove n).2).fields k = if k = n then none else r.fields k) ∧
      (∀ s, ((r.remove n).2).by_symbol s =
        if s = g.symbol then none else r.by_symbol s) ∧
      (∀ a, ((r.remove n).2).by_alias a =
        if a ∈ g.aliases then purgeOne (r.by_alias a) n else r.by_alias a)) :=
  ⟨remove_none r n, fun g hg => remove_some_char r n g hg⟩

/-- C3 witness: removing an absent name from the empty registry is a no-op
returning false, and removing a registered field deletes its symbol
entry. -/
theorem C3_remove_characterization_witness :
    FieldRegistry.empty.remove "absent" = (false, FieldRegistry.empty) ∧
    (((FieldRegistry.empty.register
        ⟨"MagneticField", "B", ureg.tesla, none, none, "B", ["B_field"], [],
         none, []⟩).remove "MagneticField").2).by_symbol "B" = none := by
  refine ⟨(C3_remove_characterization FieldRegistry.empty "absent").1 rfl, ?_⟩
  have h := ((C3_remove_characterization
    (FieldRegistry.empty.register
      ⟨"MagneticField", "B", ureg.tesla, none, none, "B", ["B_field"], [],
       none, []⟩) "MagneticField").2
    ⟨"MagneticField", "B", ureg.tesla, none, none, "B", ["B_field"], [], none, []⟩
    rfl).2.2.1 "B"
  rw [h]
  rfl

/-- C9: register only adds or overwrites entries and never purges the
replaced field: after registering f1 and then f2 with the same name but a
different symbol (the symbol not colliding with a primary name), the primary
map holds f2, yet f1 is still reachable through the symbol index under its
own symbol, and f1 is still present in the bucket of each of its aliases. -/
theorem C9_register_never_purges (r : FieldRegistry) (f1 f2 : Field)
    (hname : f2.name = f1.name) (hsym : f2.symbol ≠ f1.symbol)
    (hsn : f1.symbol ≠ f1.name) (hrf : r.fields f1.symbol = none) :
    ((r.register f1).register f2).fields f1.name = some f2 ∧ f2 ≠ f1 ∧
    ((r.register f1).register f2).get f1.symbol = some f1 ∧
    ∀ a, a ∈ f1.aliases → f1 ∈ (((r.register f1).register f2).by_alias a).getD [] := by
  have hfields : ∀ k, ((r.register f1).register f2).fields k =
      if k = f2.name then some f2 else if k = f1.name then some f1 else r.fields k :=
    fun k => rfl
  have hsymb : ∀ s, ((r.register f1).register f2).by_symbol s =
      if s = f2.symbol then some f2 else if s = f1.symbol then some f1 else r.by_symbol s :=
    fun s => rfl
  refine ⟨?_, ?_, ?_, ?_⟩
  · rw [hfields, if_pos hname.symm]
  · intro he
    exact hsym (by rw [he])
  · have h1 : ((r.register f1).register f2).fields f1.symbol = none := by
      rw [hfields, if_neg (fun hc => hsn (hc.trans hname)), if_neg hsn]
      exact hrf
    have h2 : ((r.register f1).register f2).by_symbol f1.symbol = some f1 := by
      rw [hsymb, if_neg (fun hc => hsym hc.symm), if_pos rfl]
    unfold FieldRegistry.get
    rw [h1, h2]
  · intro a ha
    have hne : ¬(f1 = f2) := fun he => hsym (by rw [he])
    have hc2 := bucketCount_register (r.register f1) f2 f1 a
    rw [if_neg hne, Nat.add_zero] at hc2
    have hc1 := bucketCount_register r f1 f1 a
    rw [if_pos rfl] at hc1
    have hpos : 0 < List.count a f1.aliases := List.count_pos_iff.mpr ha
    have : 0 < bucketCount ((r.register f1).register f2) a f1 := by
      rw [hc2, hc1]
      omega
    exact List.count_pos_iff.mp this

/-- C9 witness: two fields sharing the name "F" with distinct symbols. -/
theorem C9_register_never_purges_witness :
    ((FieldRegistry.empty.register
        ⟨"F", "s1", ureg.tesla, none, none, "s1", ["al9"], [], none, []⟩).register
        ⟨"F", "s2", ureg.gauss, none, none, "s2", [], [], none, []⟩).fields "F" =
      some ⟨"F", "s2", ureg.gauss, none, none, "s2", [], [], none, []⟩ ∧
    ((FieldRegistry.empty.register
        ⟨"F", "s1", ureg.tesla, none, none, "s1", ["al9"], [], none, []⟩).register
        ⟨"F", "s2", ureg.gauss, none, none, "s2", [], [], none, []⟩).get "s1" =
      some ⟨"F", "s1", ureg.tesla, none, none, "s1", ["al9"], [], none, []⟩ ∧
    (⟨"F", "s1", ureg.tesla, none, none, "s1", ["al9"], [], none, []⟩ : Field) ∈
      (((FieldRegistry.empty.register
        ⟨"F", "s1", ureg.tesla, none, none, "s1", ["al9"], [], none, []⟩).register
        ⟨"F", "s2", ureg.gauss, none, none, "s2", [], [], none, []⟩).by_alias "al9").getD [] := by
  have h := C9_register_never_purges FieldRegistry.empty
    ⟨"F", "s1", ureg.tesla, none, none, "s1", ["al9"], [], none, []⟩
    ⟨"F", "s2", ureg.gauss, none, none, "s2", [], [], none, []⟩
    rfl (by decide) (by decide) rfl
  exact ⟨h.1, h.2.2.1, h.2.2.2 "al9" (by decide)⟩

/-- C1: FieldRegistry.get looks up by exact name first, then by exact
symbol, then by alias, where an alias yields its bucket's field only when
the bucket holds exactly one entry and none otherwise (zero-entry or missing
buckets and buckets of two or more entries yield none); and in the
shared-alias scenario, registering two fields carrying the same alias makes
the alias lookup ambiguous (none), while removing the first field shrinks
the bucket back to a single entry and the lookup then returns the remaining
field. -/
theorem C1_get_priority_and_alias_policy (r : FieldRegistry) (id : String) :
    (∀ f, r.fields id = some f → r.get id = some f) ∧
    (r.fields id = none → ∀ f, r.by_symbol id = some f → r.get id = some f) ∧
    (r.fields id = none → r.by_symbol id = none →
      (r.by_alias id = none → r.get id = none) ∧
      (∀ l, r.by_alias id = some l →
        (l.length = 1 → r.get id = l.head?) ∧ (l.length ≠ 1 → r.get id = none))) ∧
    (∀ f1 f2 a, a ∈ f1.aliases → List.count a f2.aliases = 1 →
      f1.name ≠ f2.name → a ≠ f1.name → a ≠ f2.name → a ≠ f1.symbol → a ≠ f2.symbol →
      ((FieldRegistry.empty.register f1).register f2).get a = none ∧
      ((((FieldRegistry.empty.register f1).register f2).remove f1.name).2).get a =
        some f2) := by
  refine ⟨?_, ?_, ?_, ?_⟩
  · intro f hf
    unfold FieldRegistry.get
    rw [hf]
  · intro h0 f hf
    unfold FieldRegistry.get
    rw [h0, hf]
  · intro h0 h1
    refine ⟨fun h2 => ?_, fun l hl => ⟨fun hlen => ?_, fun hlen => ?_⟩⟩
    · unfold FieldRegistry.get
      rw [h0, h1, h2]
    · unfold FieldRegistry.get
      rw [h0, h1, hl]
      show (if l.length = 1 then l.head? else none) = l.head?
      rw [if_pos hlen]
    · unfold FieldRegistry.get
      rw [h0, h1, hl]
      show (if l.length = 1 then l.head? else none) = none
      rw [if_neg hlen]
  · intro f1 f2 a ha1 ha2 hnn han1 han2 has1 has2
    have hfa : ((FieldRegistry.empty.register f1).register f2).fields a = none := by
      show (if a = f2.name then some f2
            else if a = f1.name then some f1
            else FieldRegistry.empty.fields a) = none
      rw [if_neg han2, if_neg han1]
      rfl
    have hsa : ((FieldRegistry.empty.register f1).register f2).by_symbol a = none := by
      show (if a = f2.symbol then some f2
            else if a = f1.symbol then some f1
            else FieldRegistry.empty.by_symbol a) = none
      rw [if_neg has2, if_neg has1]
      rfl
    have hc1pos : List.count a f1.aliases ≠ 0 := by
      intro hc
      rw [List.count_eq_zero] at hc
      exact hc ha1
    have hb1 : (FieldRegistry.empty.register f1).by_alias a =
        some (List.replicate (List.count a f1.aliases) f1) := by
      rw [(register_char FieldRegistry.empty f1).2.2 a, if_neg hc1pos]
      rfl
    have hb2 : ((FieldRegistry.empty.register f1).register f2).by_alias a =
        some (List.replicate (List.count a f1.aliases) f1 ++ [f2]) := by
      rw [(register_char (FieldRegistry.empty.register f1) f2).2.2 a, ha2,
          if_neg one_ne_zero, hb1, Option.getD_some]
      rfl
    have hlen : (List.replicate (List.count a f1.aliases) f1 ++ [f2]).length ≠ 1 := by
      simp only [List.length_append, List.length_replicate, List.length_cons,
        List.length_nil]
      omega
    have hget1 : ((FieldRegistry.empty.register f1).register f2).get a = none := by
      unfold FieldRegistry.get
      rw [hfa, hsa, hb2]
      show (if (List.replicate (List.count a f1.aliases) f1 ++ [f2]).length = 1
            then (List.replicate (List.count a f1.aliases) f1 ++ [f2]).head?
            else none) = none
      rw [if_neg hlen]
    have hrm : ((FieldRegistry.empty.register f1).register f2).fields f1.name =
        some f1 := by
      show (if f1.name = f2.name then some f2
            else if f1.name = f1.name then some f1
            else FieldRegistry.empty.fields f1.name) = some f1
      rw [if_neg hnn, if_pos rfl]
    obtain ⟨_, hfk, hsy, hal⟩ :=
      remove_some_char ((FieldRegistry.empty.register f1).register f2) f1.name f1 hrm
    have hfa3 : ((((FieldRegistry.empty.register f1).register f2).remove
        f1.name).2).fields a = none := by
      rw [hfk, if_neg han1]
      exact hfa
    have hsa3 : ((((FieldRegistry.empty.register f1).register f2).remove
        f1.name).2).by_symbol a = none := by
      rw [hsy, if_neg has1]
      exact hsa
    have hne2 : f2.name ≠ f1.name := fun hc => hnn hc.symm
    have hfilter : (List.replicate (List.count a f1.aliases) f1 ++ [f2]).filter
        (fun f => f.name ≠ f1.name) = [f2] := by
      rw [List.filter_append]
      have hrep : (List.replicate (List.count a f1.aliases) f1).filter
          (fun f => f.name ≠ f1.name) = [] := by
        apply List.filter_eq_nil_iff.mpr
        intro x hx
        rw [List.eq_of_mem_replicate hx]
        simp
      rw [hrep]
      simp [hne2]
    have hb3 : ((((FieldRegistry.empty.register f1).register f2).remove
        f1.name).2).by_alias a = some [f2] := by
      rw [hal, if_pos ha1, hb2, purgeOne_some, hfilter]
      rfl
    have hget2 : ((((FieldRegistry.empty.register f1).register f2).remove
        f1.name).2).get a = some f2 := by
      unfold FieldRegistry.get
      rw [hfa3, hsa3, hb3]
      rfl
    exact ⟨hget1, hget2⟩

/-- C1 witness: two concrete fields sharing the alias "sh". -/
theorem C1_get_priority_and_alias_policy_witness :
    ((FieldRegistry.empty.register
        ⟨"A1", "As", ureg.tesla, none, none, "As", ["sh"], [], none, []⟩).register
        ⟨"B1", "Bs", ureg.tesla, none, none, "Bs", ["sh"], [], none, []⟩).get "sh" =
      none ∧
    ((((FieldRegistry.empty.register
        ⟨"A1", "As", ureg.tesla, none, none, "As", ["sh"], [], none, []⟩).register
        ⟨"B1", "Bs", ureg.tesla, none, none, "Bs", ["sh"], [], none, []⟩).remove
        "A1").2).get "sh" =
      some ⟨"B1", "Bs", ureg.tesla, none, none, "Bs", ["sh"], [], none, []⟩ :=
  (C1_get_priority_and_alias_policy FieldRegistry.empty "sh").2.2.2
    ⟨"A1", "As", ureg.tesla, none, none, "As", ["sh"], [], none, []⟩
    ⟨"B1", "Bs", ureg.tesla, none, none, "Bs", ["sh"], [], none, []⟩
    "sh" (by decide) (by decide) (by decide) (by decide) (by decide) (by decide)
    (by decide)

/-- C2 counterexample: the claimed invariant fails twice over.  First, after
registering a field named "a" with symbol "S", then a field named "b" with
the same symbol "S", then removing "a", the field named "b" is still in the
primary map and carries symbol "S", yet "S" is no longer a key of the symbol
index, because remove deleted the colliding entry unconditionally.  Second,
registering a field named "n" carrying alias "x", overwriting it with an
alias-free field of the same name, removing "n" (which purges no bucket,
since the purge walks the replacing field's aliases) and registering the
original field again leaves its alias bucket with two occurrences although
it was registered only once since the last remove of its name. -/
theorem C2_counterexample_symbol_not_indexed :
    (runOps [Op.register ⟨"a", "S", ureg.tesla, none, none, "S", [], [], none, []⟩,
             Op.register ⟨"b", "S", ureg.tesla, none, none, "S", [], [], none, []⟩,
             Op.remove "a"]).fields "b" =
      some ⟨"b", "S", ureg.tesla, none, none, "S", [], [], none, []⟩ ∧
    (⟨"b", "S", ureg.tesla, none, none, "S", [], [], none, []⟩ : Field).symbol = "S" ∧
    (runOps [Op.register ⟨"a", "S", ureg.tesla, none, none, "S", [], [], none, []⟩,
             Op.register ⟨"b", "S", ureg.tesla, none, none, "S", [], [], none, []⟩,
             Op.remove "a"]).by_symbol "S" = none ∧
    (runOps [Op.register ⟨"n", "s1", ureg.tesla, none, none, "s1", ["x"], [], none, []⟩,
             Op.register ⟨"n", "s2", ureg.tesla, none, none, "s2", [], [], none, []⟩,
             Op.remove "n",
             Op.register ⟨"n", "s1", ureg.tesla, none, none, "s1", ["x"], [], none, []⟩]).fields
        "n" = some ⟨"n", "s1", ureg.tesla, none, none, "s1", ["x"], [], none, []⟩ ∧
    regCount
      [Op.register ⟨"n", "s1", ureg.tesla, none, none, "s1", ["x"], [], none, []⟩,
       Op.register ⟨"n", "s2", ureg.tesla, none, none, "s2", [], [], none, []⟩,
       Op.remove "n",
       Op.register ⟨"n", "s1", ureg.tesla, none, none, "s1", ["x"], [], none, []⟩]
      ⟨"n", "s1", ureg.tesla, none, none, "s1", ["x"], [], none, []⟩ = 1 ∧
    bucketCount
      (runOps [Op.register ⟨"n", "s1", ureg.tesla, none, none, "s1", ["x"], [], none, []⟩,
               Op.register ⟨"n", "s2", ureg.tesla, none, none, "s2", [], [], none, []⟩,
               Op.remove "n",
               Op.register ⟨"n", "s1", ureg.tesla, none, none, "s1", ["x"], [], none, []⟩])
      "x" ⟨"n", "s1", ureg.tesla, none, none, "s1", ["x"], [], none, []⟩ = 2 := by
  refine ⟨?_, rfl, ?_, ?_, ?_, ?_⟩ <;> decide

/-- C2 amended: the invariant holds for histories in which no two distinct
registered field values share a name or a symbol: every field f currently in
the primary map then has its symbol indexed (to f itself), and each alias of
f occurs in that alias's bucket exactly (multiplicity of the alias among
f.aliases) times (number of registrations of f since the last remove of
f.name). -/
theorem C2_amended_invariant (ops : List Op) (hH : Hcompat (registeredFields ops))
    (f : Field) (hf : (runOps ops).fields f.name = some f) :
    (runOps ops).by_symbol f.symbol = some f ∧
    ∀ a, bucketCount (runOps ops) a f = List.count a f.aliases * regCount ops f := by
  have h0 : Hcompat ([] ++ registeredFields ops) := by simpa using hH
  have h := ginv_run ops [] FieldRegistry.empty (fun _ => 0) h0 ginv_empty
  rw [List.nil_append] at h
  obtain ⟨hA, hB, hD, hE, hF⟩ := h
  exact ⟨hD f hf, fun a => hE f a⟩

/-- C2 witness: a field registered, removed and registered twice again: its
symbol is indexed and its alias bucket holds it twice. -/
theorem C2_amended_invariant_witness :
    (runOps [Op.register ⟨"T", "T", ureg.kelvin, none, none, "T", ["temp"], [], none, []⟩,
             Op.remove "T",
             Op.register ⟨"T", "T", ureg.kelvin, none, none, "T", ["temp"], [], none, []⟩,
             Op.register ⟨"T", "T", ureg.kelvin, none, none, "T", ["temp"], [], none, []⟩]).by_symbol
        "T" = some ⟨"T", "T", ureg.kelvin, none, none, "T", ["temp"], [], none, []⟩ ∧
    bucketCount
      (runOps [Op.register ⟨"T", "T", ureg.kelvin, none, none, "T", ["temp"], [], none, []⟩,
               Op.remove "T",
               Op.register ⟨"T", "T", ureg.kelvin, none, none, "T", ["temp"], [], none, []⟩,
               Op.register ⟨"T", "T", ureg.kelvin, none, none, "T", ["temp"], [], none, []⟩])
      "temp" ⟨"T", "T", ureg.kelvin, none, none, "T", ["temp"], [], none, []⟩ = 2 := by
  have h := C2_amended_invariant
    [Op.register ⟨"T", "T", ureg.kelvin, none, none, "T", ["temp"], [], none, []⟩,
     Op.remove "T",
     Op.register ⟨"T", "T", ureg.kelvin, none, none, "T", ["temp"], [], none, []⟩,
     Op.register ⟨"T", "T", ureg.kelvin, none, none, "T", ["temp"], [], none, []⟩]
    (by unfold Hcompat; decide) ⟨"T", "T", ureg.kelvin, none, none, "T", ["temp"], [], none, []⟩
    (by decide)
  exact ⟨h.1, (h.2 "temp").trans (by decide)⟩

/-- C7: building a FormatDefinition from two field entries with distinct
column names, the first converting successfully with its declared kind and
the second declaring a resolvable kind incompatible with its (resolvable)
unit, yields a definition of length 2 in which list_fields_by_type of the
second entry's declared kind is empty, that field's type having been
downgraded to None at load time. -/
theorem C7_format_two_fields_one_incompatible (d1 d2 : FieldDefinition)
    (ft1 ft2 : FieldType) (f1 : Field) (s2 : String) (u2 : Unit)
    (hnames : d1.name ≠ d2.name)
    (h1 : d1.to_field = ([], .ok f1)) (hf1t : f1.field_type = some ft1)
    (hd2 : d2.field_type = some s2) (hs2 : s2 ≠ "")
    (hget2 : get_field_type s2 = some ft2)
    (hparse2 : parseUnit (normalize_unit d2.unit) = some u2)
    (hcmp2 : ft2.is_compatible (.str (normalize_unit d2.unit)) = false)
    (hft : ft1 ≠ ft2) :
    (mkFormatDefinition "fmt" [d1, d2]).len = 2 ∧
    (mkFormatDefinition "fmt" [d1, d2]).list_fields_by_type ft2 = [] := by
  have h2 := to_field_incompatible d2 s2 ft2 u2 hd2 hs2 hget2 hparse2 hcmp2
  have hb1 : buildStep ([], FieldRegistry.empty, []) d1 =
      (dictInsert [] d1.name f1, FieldRegistry.empty.register f1, [] ++ []) := by
    unfold buildStep
    rw [h1]
  have hb2 : buildStep (dictInsert [] d1.name f1, FieldRegistry.empty.register f1,
        [] ++ []) d2 =
      (dictInsert (dictInsert [] d1.name f1) d2.name
        ⟨d2.name, pyOrStr d2.symbol d2.name, u2, none, d2.description,
         d2.latex_symbol.getD (pyOrStr d2.symbol d2.name), d2.aliases,
         d2.exclude_regions, none, []⟩,
       (FieldRegistry.empty.register f1).register
        ⟨d2.name, pyOrStr d2.symbol d2.name, u2, none, d2.description,
         d2.latex_symbol.getD (pyOrStr d2.symbol d2.name), d2.aliases,
         d2.exclude_regions, none, []⟩,
       ([] ++ []) ++ [incompatWarning d2]) := by
    unfold buildStep
    rw [h2]
  have hdict : dictInsert (dictInsert [] d1.name f1) d2.name
      ⟨d2.name, pyOrStr d2.symbol d2.name, u2, none, d2.description,
       d2.latex_symbol.getD (pyOrStr d2.symbol d2.name), d2.aliases,
       d2.exclude_regions, none, []⟩ =
      [(d1.name, f1),
       (d2.name,
        ⟨d2.name, pyOrStr d2.symbol d2.name, u2, none, d2.description,
         d2.latex_symbol.getD (pyOrStr d2.symbol d2.name), d2.aliases,
         d2.exclude_regions, none, []⟩)] := by
    show dictInsert [(d1.name, f1)] d2.name _ = _
    unfold dictInsert
    rw [if_neg hnames]
    rfl
  have hfields : (mkFormatDefinition "fmt" [d1, d2]).fields =
      [(d1.name, f1),
       (d2.name,
        ⟨d2.name, pyOrStr d2.symbol d2.name, u2, none, d2.description,
         d2.latex_symbol.getD (pyOrStr d2.symbol d2.name), d2.aliases,
         d2.exclude_regions, none, []⟩)] := by
    show (buildFields [d1, d2]).1 = _
    show (buildStep (buildStep ([], FieldRegistry.empty, []) d1) d2).1 = _
    rw [hb1, hb2]
    exact hdict
  constructor
  · show (mkFormatDefinition "fmt" [d1, d2]).fields.length = 2
    rw [hfields]
    rfl
  · unfold FormatDefinition.list_fields_by_type
    rw [hfields]
    simp [hf1t, hft]

/-- C7 witness: a compatible temperature entry and an incompatible
magnetic-field entry declared in meter. -/
theorem C7_format_two_fields_one_incompatible_witness :
    (mkFormatDefinition "fmt"
      [FieldDefinition.mk "T" (some "temperature") "kelvin" none none none [] [],
       FieldDefinition.mk "B" (some "magnetic_field") "meter" none none none [] []]).len
      = 2 ∧
    (mkFormatDefinition "fmt"
      [FieldDefinition.mk "T" (some "temperature") "kelvin" none none none [] [],
       FieldDefinition.mk "B" (some "magnetic_field") "meter" none none none [] []]).list_fields_by_type
      FieldType.MAGNETIC_FIELD = [] :=
  C7_format_two_fields_one_incompatible
    (FieldDefinition.mk "T" (some "temperature") "kelvin" none none none [] [])
    (FieldDefinition.mk "B" (some "magnetic_field") "meter" none none none [] [])
    .TEMPERATURE .MAGNETIC_FIELD
    ⟨"T", "T", ureg.kelvin, some .TEMPERATURE, none, "T", [], [], none, []⟩
    "magnetic_field" ureg.meter
    (by decide) rfl rfl rfl (by decide) rfl rfl (by decide) (by decide)

end MagnetUnits
